import Mathlib

set_option maxHeartbeats 1600000

/-!
Verification of the meteorica parameter-fusion engine against its
specification.  The Python sources under src/meteorica are embedded
shallowly: dict-valued inputs become association lists
(`List (String × _)`, iteration order = insertion order) when the code
iterates over them, or lookup functions (`String → Option _`) when the
code only indexes/`get`s them; floating-point arithmetic is embedded as
exact rational (`ℚ`) arithmetic, with `Real.sqrt` / `Real.log` /
`Real.exp` for the square roots, logarithms and exponentials; a Python
function that can raise returns an `Option` (`none` = exception).
-/

namespace Meteorica

/-- Association-list lookup: models Python dict indexing `d[k]` combined
with the membership test `k in d` (`none` = key absent). -/
def lookupKey {α : Type} : List (String × α) → String → Option α
  | [], _ => none
  | (k, v) :: rest, s => if k = s then some v else lookupKey rest s

/-! ## EMI (src/meteorica/emi.py) -/

/-- `DEFAULT_WEIGHTS` of emi.py (insertion order preserved). -/
def DEFAULT_WEIGHTS : List (String × ℚ) :=
  [("mcc", 0.26), ("smg", 0.19), ("twi", 0.18), ("iaf", 0.17),
   ("atp", 0.10), ("pbdr", 0.06), ("cnea", 0.04)]

/-- `CRITICAL_THRESHOLDS` of emi.py: parameter name ↦ (min, max). -/
def CRITICAL_THRESHOLDS : List (String × ℚ × ℚ) :=
  [("mcc", 0, 1), ("smg", 0, 1), ("twi", 0, 1), ("iaf", 0, 1),
   ("atp", 0, 6000), ("pbdr", 0, 1), ("cnea", 0, 100)]

/-- `normalize_parameter` of emi.py: clip the value to the named
threshold interval with np.clip (lower bound applied first, then the
upper), rescale linearly; an unregistered parameter name raises
ValueError, modelled by `none`; min = max returns the fixed 0.5. -/
def normalize_parameter (value : ℚ) (param_name : String)
    (thresholds : List (String × ℚ × ℚ)) : Option ℚ :=
  match lookupKey thresholds param_name with
  | none => none
  | some (tmin, tmax) =>
    let clipped := min (max value tmin) tmax
    if tmax = tmin then some (1/2)
    else some ((clipped - tmin) / (tmax - tmin))

/-- The `available_params` selection loop of `calculate_emi`: the weight
entries whose parameter is present in the input mapping, paired with the
supplied value. -/
def availableParams (weights : List (String × ℚ))
    (parameters : String → Option ℚ) : List (String × ℚ × ℚ) :=
  weights.filterMap fun pw => (parameters pw.1).map fun v => (pw.1, pw.2, v)

/-- The accumulation loop of `calculate_emi`: total weight and weighted
sum of normalized values over the available parameters; `none` when a
`normalize_parameter` call raised. -/
def emiAccum (thresholds : List (String × ℚ × ℚ)) :
    List (String × ℚ × ℚ) → Option (ℚ × ℚ)
  | [] => some (0, 0)
  | (p, w, v) :: rest =>
    match normalize_parameter v p thresholds, emiAccum thresholds rest with
    | some n, some (tw, ws) => some (tw + w, ws + w * n)
    | _, _ => none

/-- `calculate_emi` of emi.py.  Returns 0.0 when no parameter of the
weight table is supplied; otherwise the weighted sum of normalized
values divided by the total weight used. -/
def calculate_emi (parameters : String → Option ℚ)
    (weights : List (String × ℚ))
    (thresholds : List (String × ℚ × ℚ)) : Option ℚ :=
  let available := availableParams weights parameters
  if available.isEmpty then some 0
  else
    match emiAccum thresholds available with
    | none => none
    | some (tw, ws) => some (if 0 < tw then ws / tw else 0)

/-! ## Distance metrics (src/meteorica/utils/mahalanobis.py; the same
`mahalanobis_distance` is duplicated verbatim in
src/meteorica/parameters/mcc.py) -/

/-- `euclidean_distance` of utils/mahalanobis.py:
np.sqrt(np.sum((x - centroid) ** 2)). -/
noncomputable def euclidean_distance {n : ℕ} (x centroid : Fin n → ℚ) : ℝ :=
  Real.sqrt ((∑ i, (x i - centroid i) ^ 2 : ℚ) : ℝ)

/-- The quadratic form computed inside `mahalanobis_distance` before the
final np.sqrt: diff · Σ⁻¹ · diff when the covariance matrix is
invertible (np.linalg.inv of an invertible matrix is det⁻¹ · adjugate),
and the squared Euclidean norm of diff in the except-branch where
np.linalg.inv raises LinAlgError on a singular matrix. -/
def mahalanobis_sq {n : ℕ} (x centroid : Fin n → ℚ)
    (cov : Matrix (Fin n) (Fin n) ℚ) : ℚ :=
  let diff := fun i => x i - centroid i
  if cov.det = 0 then ∑ i, diff i ^ 2
  else Matrix.dotProduct diff ((cov.det⁻¹ • cov.adjugate).mulVec diff)

/-- `mahalanobis_distance` of utils/mahalanobis.py (and mcc.py): the
square root of the quadratic form, falling back to the Euclidean
distance when the covariance matrix is singular.  The returned value is
a bare number: nothing in it records whether the fallback was taken. -/
noncomputable def mahalanobis_distance {n : ℕ} (x centroid : Fin n → ℚ)
    (cov : Matrix (Fin n) (Fin n) ℚ) : ℝ :=
  Real.sqrt ((mahalanobis_sq x centroid cov : ℚ) : ℝ)

/-! ## MCC (src/meteorica/parameters/mcc.py) -/

/-- One row of `GROUP_CENTROIDS` in mcc.py: reference values, `none` for
Python's None. -/
structure Centroid where
  fa : Option ℚ
  fs : Option ℚ
  d17O : Option ℚ
  ni : Option ℚ

/-- `GROUP_CENTROIDS` of mcc.py, in insertion order. -/
def GROUP_CENTROIDS : List (String × Centroid) :=
  [("H", ⟨some 18.5, some 16.5, some 0.75, none⟩),
   ("L", ⟨some 24.5, some 21.0, some 1.05, none⟩),
   ("LL", ⟨some 29.0, some 24.5, some 1.25, none⟩),
   ("CI", ⟨none, none, some (-2.5), none⟩),
   ("CM", ⟨none, none, some (-3.0), none⟩),
   ("CO", ⟨some 12.0, some 3.5, some (-4.5), none⟩),
   ("CV", ⟨some 8.5, some 2.0, some (-3.8), none⟩),
   ("CR", ⟨some 3.5, some 2.0, some (-1.5), none⟩),
   ("IAB", ⟨none, none, none, some 8.5⟩),
   ("IIAB", ⟨none, none, none, some 5.6⟩),
   ("IIIAB", ⟨none, none, none, some 8.2⟩),
   ("IVA", ⟨none, none, none, some 8.0⟩),
   ("IVB", ⟨none, none, none, some 16.5⟩)]

/-- `GROUP_COVARIANCES` of mcc.py. -/
def GROUP_COVARIANCES : List (String × Matrix (Fin 3) (Fin 3) ℚ) :=
  [("H", Matrix.of ![![2.5, 1.2, 0.1], ![1.2, 2.3, 0.08], ![0.1, 0.08, 0.04]]),
   ("L", Matrix.of ![![2.8, 1.4, 0.12], ![1.4, 2.6, 0.1], ![0.12, 0.1, 0.05]]),
   ("LL", Matrix.of ![![3.0, 1.5, 0.15], ![1.5, 2.8, 0.12], ![0.15, 0.12, 0.06]])]

/-- The running strict-minimum loop shared by mcc.py and iaf.py:
min_distance starts at float('inf') and best_group at None, so the
first entry always replaces the initial state, and a later entry
replaces the current best only when strictly smaller (ties keep the
earlier group). -/
noncomputable def bestStep (acc : Option (String × ℝ)) (p : String × ℝ) :
    Option (String × ℝ) :=
  match acc with
  | none => some p
  | some (g, d) => if p.2 < d then some p else some (g, d)

/-- The whole minimum search over a distance list. -/
noncomputable def foldBest (l : List (String × ℝ)) : Option (String × ℝ) :=
  l.foldl bestStep none

/-- The observation vector of `_calculate_mcc_stony`: missing 'fa',
'fs', 'd17O' fields default to 0 via dict.get(key, 0). -/
def stonyObs (mineral_data : String → Option ℚ) : Fin 3 → ℚ :=
  ![(mineral_data "fa").getD 0, (mineral_data "fs").getD 0,
    (mineral_data "d17O").getD 0]

/-- The stony candidate groups of the `_calculate_mcc_stony` loop: every
centroid row that is not skipped by the `fa is None` guard, as a 3-vector.
(Every row of the table whose 'fa' is set also sets 'fs' and 'd17O', so
requiring all three equals the source's fa-only guard.) -/
def stonyCandidates : List (String × (Fin 3 → ℚ)) :=
  GROUP_CENTROIDS.filterMap fun gc =>
    match gc.2.fa, gc.2.fs, gc.2.d17O with
    | some a, some b, some c => some (gc.1, ![a, b, c])
    | _, _, _ => none

/-- Covariance used for a group: the registered matrix, else the
default np.eye(3) * 2.0. -/
def covFor (g : String) : Matrix (Fin 3) (Fin 3) ℚ :=
  (lookupKey GROUP_COVARIANCES g).getD ((2 : ℚ) • (1 : Matrix (Fin 3) (Fin 3) ℚ))

/-- The Mahalanobis distance of an observation to every stony candidate
group, in table order. -/
noncomputable def stonyDistancesOfObs (obs : Fin 3 → ℚ) : List (String × ℝ) :=
  stonyCandidates.map fun gc => (gc.1, mahalanobis_distance obs gc.2 (covFor gc.1))

/-- Result record of `calculate_mcc`: the stony branch fills `centroid`,
the iron branch fills `ni_content`. -/
structure MccResult where
  mcc : ℝ
  group : Option String
  distance : ℝ
  centroid : Option (Fin 3 → ℚ)
  ni_content : Option ℚ

/-- `_calculate_mcc_stony` of mcc.py, factored through the observation
vector it builds: nearest group by Mahalanobis distance, then
MCC = max(0, 1 - distance / 5).  The `none` branch is unreachable (the
candidate table is nonempty); the source would report group None with an
infinite distance there. -/
noncomputable def mccFromStonyObs (obs : Fin 3 → ℚ) : MccResult :=
  match foldBest (stonyDistancesOfObs obs) with
  | some (g, d) =>
    { mcc := max 0 (1 - d / 5), group := some g, distance := d,
      centroid := lookupKey stonyCandidates g, ni_content := none }
  | none => { mcc := 0, group := none, distance := 0, centroid := none, ni_content := none }

/-- `_calculate_mcc_stony` of mcc.py. -/
noncomputable def calculate_mcc_stony (mineral_data : String → Option ℚ) : MccResult :=
  mccFromStonyObs (stonyObs mineral_data)

/-- The iron candidate groups (centroid rows with a non-None 'ni'). -/
def ironCandidates : List (String × ℚ) :=
  GROUP_CENTROIDS.filterMap fun gc => gc.2.ni.map fun niv => (gc.1, niv)

/-- `_calculate_mcc_iron` of mcc.py: nearest group by absolute nickel
difference, MCC = max(0, 1 - distance / 5). -/
noncomputable def calculate_mcc_iron (mineral_data : String → Option ℚ) : MccResult :=
  let ni := (mineral_data "ni").getD 0
  match foldBest (ironCandidates.map fun gn => (gn.1, ((|ni - gn.2| : ℚ) : ℝ))) with
  | some (g, d) =>
    { mcc := max 0 (1 - d / 5), group := some g, distance := d,
      centroid := none, ni_content := some ni }
  | none => { mcc := 0, group := none, distance := 0, centroid := none, ni_content := some ni }

/-- `calculate_mcc` of mcc.py: the iron branch runs only when a non-None
'ni' entry is present. -/
noncomputable def calculate_mcc (mineral_data : String → Option ℚ) : MccResult :=
  if (mineral_data "ni").isSome then calculate_mcc_iron mineral_data
  else calculate_mcc_stony mineral_data

/-! ## SMG (src/meteorica/parameters/smg.py) -/

/-- `INDICATOR_WEIGHTS` of smg.py. -/
def INDICATOR_WEIGHTS : List (String × ℚ) :=
  [("olivine_planar", 0.28), ("feldspar_state", 0.24), ("metal_melting", 0.18),
   ("high_pressure_phases", 0.16), ("sulfide_state", 0.09), ("porosity", 0.05)]

/-- `olivine_to_pressure` of smg.py. -/
def olivine_to_pressure (indicator_value : ℚ) : ℚ :=
  if indicator_value < 0.1 then 4
  else if indicator_value < 0.25 then 8
  else if indicator_value < 0.45 then 15
  else if indicator_value < 0.65 then 28
  else if indicator_value < 0.85 then 45
  else 70

/-- `feldspar_to_pressure` of smg.py. -/
def feldspar_to_pressure (indicator_value : ℚ) : ℚ :=
  if indicator_value < 0.2 then 4
  else if indicator_value < 0.4 then 12
  else if indicator_value < 0.6 then 25
  else if indicator_value < 0.8 then 40
  else 65

/-- `metal_to_pressure` of smg.py. -/
def metal_to_pressure (indicator_value : ℚ) : ℚ :=
  8 + indicator_value * 55

/-- `high_pressure_to_pressure` of smg.py. -/
def high_pressure_to_pressure (indicator_value : ℚ) : ℚ :=
  if indicator_value < 0.1 then 0
  else if indicator_value < 0.3 then 22
  else if indicator_value < 0.6 then 38
  else 58

/-- `sulfide_to_pressure` of smg.py. -/
def sulfide_to_pressure (indicator_value : ℚ) : ℚ :=
  4 + indicator_value * 38

/-- `porosity_to_pressure` of smg.py. -/
def porosity_to_pressure (indicator_value : ℚ) : ℚ :=
  2 + (1 - indicator_value) * 48

/-- `INDICATOR_FUNCTIONS` of smg.py. -/
def INDICATOR_FUNCTIONS : List (String × (ℚ → ℚ)) :=
  [("olivine_planar", olivine_to_pressure), ("feldspar_state", feldspar_to_pressure),
   ("metal_melting", metal_to_pressure), ("high_pressure_phases", high_pressure_to_pressure),
   ("sulfide_state", sulfide_to_pressure), ("porosity", porosity_to_pressure)]

/-- `get_shock_stage` of smg.py. -/
def get_shock_stage (pressure_gpa : ℚ) : String :=
  if pressure_gpa < 5 then "S1"
  else if pressure_gpa < 10 then "S2"
  else if pressure_gpa < 20 then "S3"
  else if pressure_gpa < 35 then "S4"
  else if pressure_gpa < 55 then "S5"
  else "S6"

/-- The accumulation loop of `calculate_smg`: (weight sum, weighted
pressure sum, per-indicator pressures) over the entries registered in
both tables. -/
def smgAccum : List (String × ℚ) → ℚ × ℚ × List (String × ℚ)
  | [] => (0, 0, [])
  | (ind, v) :: rest =>
    let acc := smgAccum rest
    match lookupKey INDICATOR_WEIGHTS ind, lookupKey INDICATOR_FUNCTIONS ind with
    | some w, some f => (acc.1 + w, acc.2.1 + w * f v, (ind, f v) :: acc.2.2)
    | _, _ => acc

/-- Result record of `calculate_smg`.  (The early zero-weight return of
the source omits the 'pressures' key; it is the empty list here.) -/
structure SmgResult where
  smg : ℚ
  peak_pressure_gpa : ℚ
  shock_stage : String
  pressures : List (String × ℚ)

/-- `calculate_smg` of smg.py. -/
def calculate_smg (shock_data : List (String × ℚ)) : SmgResult :=
  let acc := smgAccum shock_data
  if acc.1 = 0 then
    { smg := 0, peak_pressure_gpa := 0, shock_stage := "S1", pressures := [] }
  else
    let peak_pressure := acc.2.1 / acc.1
    { smg := min 1 (peak_pressure / 90), peak_pressure_gpa := peak_pressure,
      shock_stage := get_shock_stage peak_pressure, pressures := acc.2.2 }

/-! ## TWI (src/meteorica/parameters/twi.py) -/

/-- `calculate_twi` of twi.py: fixed linear combination of the five
weathering indicators (each absent indicator defaults to 0 via
dict.get), clamped to [0, 1]. -/
def calculate_twi (weathering_data : String → Option ℚ) : ℚ :=
  let metal_ox := (weathering_data "metal_oxidation").getD 0
  let phyllo := (weathering_data "phyllosilicate").getD 0
  let carbonate := (weathering_data "carbonate_veins").getD 0
  let be_ne_dev := (weathering_data "be_ne_deviation").getD 0
  let fe_ni_dev := (weathering_data "fe_ni_deviation").getD 0
  let twi := 0.30 * metal_ox + 0.25 * phyllo + 0.20 * carbonate +
    0.15 * be_ne_dev + 0.10 * fe_ni_dev
  min 1 (max 0 twi)

/-! ## ATP (src/meteorica/parameters/atp.py) -/

/-- The peak-temperature fields of `calculate_atp`'s result. -/
structure AtpPeak where
  T_max_c : ℚ
  T_max_k : ℚ
  T_max_precision : ℚ

/-- The peak-temperature post-processing of `calculate_atp`
(src/meteorica/parameters/atp.py): parameter extraction of lines 55-57
(velocity_km_s · 1000), then lines 129-131 and the result fields of
lines 139-142.  The 3000-step floating-point integration loop of lines
93-127 (which mixes np.exp density terms with the simplified velocity
model) is abstracted by its outcome `T_loop_max`, the running peak
surface temperature in kelvin at the end of the loop: whatever the loop
produced is replaced by the literal 4820 °C (+273.15 K) whenever
velocity > 18000 m/s and diameter > 15 m. -/
def calculate_atp_peak (velocity_km_s diameter_m : ℚ) (T_loop_max : ℚ) : AtpPeak :=
  let velocity := velocity_km_s * 1000
  let T_max := if 18000 < velocity ∧ 15 < diameter_m then 4820 + 273.15 else T_loop_max
  { T_max_c := T_max - 273.15, T_max_k := T_max, T_max_precision := 180.0 }

/-! ## IAF (src/meteorica/parameters/iaf.py) -/

/-- `GROUP_ISOTOPE_CENTROIDS` of iaf.py, in insertion order: 7-component
isotope-anomaly centroids. -/
def GROUP_ISOTOPE_CENTROIDS : List (String × (Fin 7 → ℚ)) :=
  [("CI", ![0, 0, 0, 0, 0, 0, 0]),
   ("CM", ![1.2, 0.88, -0.3, -0.2, 0.1, -0.1, 0]),
   ("CR", ![2.1, 1.53, -0.8, -0.5, 0.3, -0.2, -0.1]),
   ("CO", ![1.8, 1.20, -0.5, -0.3, 0.2, -0.15, -0.05]),
   ("CV", ![1.5, 1.05, -0.4, -0.25, 0.15, -0.12, -0.03]),
   ("H", ![0.5, 0.3, 0.1, 0.05, 0.02, 0.01, 0]),
   ("L", ![0.6, 0.4, 0.15, 0.08, 0.03, 0.02, 0]),
   ("LL", ![0.7, 0.5, 0.2, 0.1, 0.04, 0.03, 0]),
   ("EH", ![-0.2, -0.1, 0, 0, 0, 0, 0]),
   ("EL", ![-0.15, -0.05, 0, 0, 0, 0, 0])]

/-- `GROUP_DISPERSION` of iaf.py. -/
def GROUP_DISPERSION : List (String × ℚ) :=
  [("CI", 0.5), ("CM", 0.6), ("CR", 0.7), ("CO", 0.6), ("CV", 0.6),
   ("H", 0.4), ("L", 0.4), ("LL", 0.4), ("EH", 0.3), ("EL", 0.3)]

/-- The observation vector of `calculate_iaf`: the seven anomaly keys,
each defaulting to 0 via dict.get. -/
def iafObs (isotope_data : String → Option ℚ) : Fin 7 → ℚ :=
  ![(isotope_data "ε⁵⁰Ti").getD 0, (isotope_data "ε⁵⁴Cr").getD 0,
    (isotope_data "ε⁹⁶Mo").getD 0, (isotope_data "ε¹⁰⁰Mo").getD 0,
    (isotope_data "ε⁹²Ru").getD 0, (isotope_data "ε¹³⁷Ba").getD 0,
    (isotope_data "ε¹⁴²Nd").getD 0]

/-- The Euclidean distance of the observation to every group centroid,
in table order (the `all_distances` dict of the source). -/
noncomputable def iafDistances (isotope_data : String → Option ℚ) : List (String × ℝ) :=
  GROUP_ISOTOPE_CENTROIDS.map fun gc =>
    (gc.1, euclidean_distance (iafObs isotope_data) gc.2)

/-- Result record of `calculate_iaf`. -/
structure IafResult where
  iaf : ℝ
  group : Option String
  distance : ℝ
  sigma : ℝ
  is_outlier : Prop
  all_distances : List (String × ℝ)

/-- `calculate_iaf` of iaf.py: nearest centroid by Euclidean distance,
score exp(-d² / (2 σ²)) with the best group's dispersion (default 0.5),
outlier flag when the score is below 0.3.  The `none` branch is
unreachable (the centroid table is nonempty); there the source would
keep group None with an infinite distance, giving score exp(-inf) = 0. -/
noncomputable def calculate_iaf (isotope_data : String → Option ℚ) : IafResult :=
  let all := iafDistances isotope_data
  match foldBest all with
  | some (g, d) =>
    let sigma : ℚ := (lookupKey GROUP_DISPERSION g).getD 0.5
    let iaf := Real.exp (-(d ^ 2) / (2 * (sigma : ℝ) ^ 2))
    { iaf := iaf, group := some g, distance := d, sigma := (sigma : ℝ),
      is_outlier := iaf < 0.3, all_distances := all }
  | none =>
    { iaf := 0, group := none, distance := 0, sigma := 0.5, is_outlier := False,
      all_distances := all }

/-! ## PBDR (src/meteorica/parameters/pbdr.py) -/

/-- A Python value found in an HSE input dict: a finite number, a
non-finite float (nan, +inf, -inf), or something that is not an
int/float at all (None, a string, ...). -/
inductive PyNum where
  | num (q : ℚ)
  | nan
  | inf
  | ninf
  | nonNum
deriving DecidableEq

/-- `CI_HSE_ABUNDANCES` of pbdr.py (ng/g). -/
def CI_HSE_ABUNDANCES : List (String × ℚ) :=
  [("os", 486), ("ir", 481), ("ru", 712), ("pt", 1010), ("pd", 560),
   ("re", 37), ("au", 140)]

/-- The per-entry validity test of `calculate_pbdr`'s loop: an entry is
kept iff its value is a finite number (np.isfinite rejects nan and ±inf;
the `value <= 0` test already rejects -inf), strictly positive, and its
element has a chondritic reference with a positive value; a kept entry
carries the ratio to the reference.  Everything else is skipped
silently. -/
def hseKeep (el : String) (v : PyNum) : Option (String × ℚ) :=
  match v with
  | PyNum.num q =>
    if q ≤ 0 then none
    else
      (lookupKey CI_HSE_ABUNDANCES el).bind fun ci =>
        if ci ≤ 0 then none else some (el, q / ci)
  | _ => none

/-- The validity filter loop of `calculate_pbdr`: the valid entries,
with their ratio to the chondritic reference, in input order. -/
def validHseEntries (hse_data : List (String × PyNum)) : List (String × ℚ) :=
  hse_data.filterMap fun ev => hseKeep ev.1 ev.2

/-- `interpret_differentiation` of pbdr.py. -/
def interpret_differentiation (pbdr : ℚ) : String :=
  if pbdr < 0.1 then "Undifferentiated (Chondritic)"
  else if pbdr < 0.35 then "Partially differentiated"
  else if pbdr < 0.65 then "Moderately differentiated"
  else if pbdr < 0.85 then "Highly differentiated"
  else "Fully differentiated (Core/Mantle)"

/-- The `value < 50` test of `estimate_parent_body`'s generator, on a
Python value: non-numeric entries are filtered out of the generator
(vacuously true), nan < 50 and inf < 50 are False, -inf < 50 is True. -/
def pyBelow50 : PyNum → Bool
  | PyNum.num q => decide (q < 50)
  | PyNum.nan => false
  | PyNum.inf => false
  | PyNum.ninf => true
  | PyNum.nonNum => true

/-- `estimate_parent_body` of pbdr.py. -/
def estimate_parent_body (pbdr : ℚ) (hse_data : List (String × PyNum)) : String :=
  if pbdr < 0.1 then "Undifferentiated asteroid (chondritic)"
  else if pbdr < 0.3 then "Partially differentiated body"
  else if pbdr < 0.6 then "Differentiated asteroid (e.g., Vesta-like)"
  else if pbdr < 0.9 then "Highly differentiated body (mantle/crust sample)"
  else if !hse_data.isEmpty && hse_data.all fun ev => pyBelow50 ev.2 then
    "Vesta-like differentiated body (mantle sample)"
  else "Core material (fully differentiated)"

/-- Result record of `calculate_pbdr`. -/
structure PbdrResult where
  pbdr : ℚ
  avg_hse_ratio : ℚ
  differentiation : String
  parent_body_type : String
  elements_analyzed : List String

/-- `calculate_pbdr` of pbdr.py: the mean ratio to the chondritic
reference over the valid entries, PBDR = clamp(1 - mean, 0, 1); the
empty valid set returns the explicit undifferentiated record instead of
failing. -/
def calculate_pbdr (hse_data : List (String × PyNum)) : PbdrResult :=
  match validHseEntries hse_data with
  | [] =>
    { pbdr := 0, avg_hse_ratio := 0,
      differentiation := "Undifferentiated (Chondritic)",
      parent_body_type := "Undifferentiated asteroid",
      elements_analyzed := [] }
  | e :: rest =>
    let ratios := ((e :: rest).map Prod.snd : List ℚ)
    let avg_ratio := ratios.sum / ratios.length
    let pbdr := max 0 (min 1 (1 - avg_ratio))
    { pbdr := pbdr, avg_hse_ratio := avg_ratio,
      differentiation := interpret_differentiation pbdr,
      parent_body_type := estimate_parent_body pbdr hse_data,
      elements_analyzed := (e :: rest).map Prod.fst }

/-! ## CNEA (src/meteorica/parameters/cnea.py) -/

/-- `PRODUCTION_RATES` of cnea.py (atoms/g/Ma). -/
def PRODUCTION_RATES : List (String × ℚ) :=
  [("he3", 1.5), ("ne21", 0.35), ("ar38", 0.08), ("be10", 0.05),
   ("al26", 0.07), ("cl36", 0.03)]

/-- `HALF_LIVES` of cnea.py (Ma). -/
def HALF_LIVES : List (String × ℚ) :=
  [("be10", 1.387), ("al26", 0.717), ("cl36", 0.301)]

/-- One pass of the stable-nuclide loop of `calculate_cnea`, given the
concentration found in the input dict: skipped when non-positive or when
the production-rate table gives no positive rate (dict.get default 0);
otherwise age = concentration / production rate with 8% uncertainty. -/
noncomputable def stableEntry (nuclide : String) (concentration : ℚ) :
    Option (String × ℝ × ℝ) :=
  if concentration ≤ 0 then none
  else
    let P := (lookupKey PRODUCTION_RATES nuclide).getD 0
    if 0 < P then
      let age : ℝ := (concentration : ℝ) / (P : ℝ)
      some (nuclide, age, 0.08 * age)
    else none

/-- One pass of the radioactive-nuclide loop of `calculate_cnea`:
decay_const = ln 2 / half_life, N_sat = P / decay_const; below
saturation age = -ln(1 - c/N_sat)/decay_const with 12% uncertainty, at
or above saturation age = 3 half-lives with 20% uncertainty.  The bind
models `HALF_LIVES.get(nuclide)` combined with the truthiness test of
`if P > 0 and half_life`. -/
noncomputable def radioEntry (nuclide : String) (concentration : ℚ) :
    Option (String × ℝ × ℝ) :=
  if concentration ≤ 0 then none
  else
    let P := (lookupKey PRODUCTION_RATES nuclide).getD 0
    (lookupKey HALF_LIVES nuclide).bind fun half_life =>
      if 0 < P ∧ half_life ≠ 0 then
        let decay_const : ℝ := Real.log 2 / (half_life : ℝ)
        let N_sat : ℝ := (P : ℝ) / decay_const
        if (concentration : ℝ) < N_sat then
          let age := -Real.log (1 - (concentration : ℝ) / N_sat) / decay_const
          some (nuclide, age, 0.12 * age)
        else
          some (nuclide, 3 * (half_life : ℝ), 0.20 * (3 * (half_life : ℝ)))
      else none

/-- The stable-nuclide loop of `calculate_cnea` over ('he3', 'ne21',
'ar38'): each (nuclide, age, uncertainty) in loop order. -/
noncomputable def stableAges (nuclide_data : String → Option ℚ) :
    List (String × ℝ × ℝ) :=
  (["he3", "ne21", "ar38"] : List String).filterMap fun n =>
    (nuclide_data n).bind (stableEntry n)

/-- The radioactive-nuclide loop of `calculate_cnea` over ('be10',
'al26', 'cl36'). -/
noncomputable def radioAges (nuclide_data : String → Option ℚ) :
    List (String × ℝ × ℝ) :=
  (["be10", "al26", "cl36"] : List String).filterMap fun n =>
    (nuclide_data n).bind (radioEntry n)

/-- The concordance record built by `check_concordance` of cnea.py (its
boolean first return value duplicates the record's `is_concordant`). -/
structure Concordia where
  mean_age : ℝ
  max_deviation_sigma : ℝ
  threshold_sigma : ℝ
  deviations : List (String × ℝ)
  is_concordant : Prop

/-- `check_concordance` of cnea.py: fewer than two nuclides are
trivially concordant; otherwise each nuclide with positive uncertainty
deviates from the plain mean in units of its own sigma, and the ages
are concordant iff the maximal deviation is at most the threshold. -/
noncomputable def check_concordance (ages : List (String × ℝ))
    (uncertainties : List (String × ℝ)) (threshold : ℝ) : Concordia :=
  if ages.length < 2 then
    { mean_age := (ages.head?.map Prod.snd).getD 0, max_deviation_sigma := 0,
      threshold_sigma := threshold, deviations := [], is_concordant := True }
  else
    let mean_age := (ages.map Prod.snd).sum / ages.length
    let deviations := ages.filterMap fun na =>
      let sigma := (lookupKey uncertainties na.1).getD 0
      if 0 < sigma then some (na.1, |na.2 - mean_age| / sigma) else none
    let max_dev := deviations.foldl (fun m p => max m p.2) 0
    { mean_age := mean_age, max_deviation_sigma := max_dev,
      threshold_sigma := threshold, deviations := deviations,
      is_concordant := max_dev ≤ threshold }

/-- Result record of `calculate_cnea`.  (The empty-input return of the
source omits the 'concordia' key, hence the `Option`.) -/
structure CneaResult where
  cnea : ℝ
  age_ma : ℝ
  exposure_history : String
  is_concordant : Prop
  ages : List (String × ℝ)
  uncertainties : List (String × ℝ)
  concordia : Option Concordia
  nuclides_analyzed : List String

open Classical in
/-- `calculate_cnea` of cnea.py: the stable loop then the radioactive
loop build the per-nuclide ages and uncertainties; no valid nuclide
returns the zero/"Unknown" record; otherwise the fused age is the
inverse-variance weighted mean (np.average) over nuclides with positive
uncertainty, else the plain mean, concordance is tested at 2 sigma, and
cnea = fused age / 100. -/
noncomputable def calculate_cnea (nuclide_data : String → Option ℚ) : CneaResult :=
  let ageList := stableAges nuclide_data ++ radioAges nuclide_data
  if ageList.isEmpty then
    { cnea := 0, age_ma := 0, exposure_history := "Unknown", is_concordant := True,
      ages := [], uncertainties := [], concordia := none, nuclides_analyzed := [] }
  else
    let agesA := ageList.map fun e => (e.1, e.2.1)
    let uncsA := ageList.map fun e => (e.1, e.2.2)
    let weighted := ageList.filterMap fun e =>
      if 0 < e.2.2 then some (1 / e.2.2 ^ 2, e.2.1) else none
    let mean_age :=
      if weighted.isEmpty then (agesA.map Prod.snd).sum / agesA.length
      else (weighted.map fun wv => wv.1 * wv.2).sum / (weighted.map Prod.fst).sum
    let conc := check_concordance agesA uncsA 2
    { cnea := mean_age / 100, age_ma := mean_age,
      exposure_history := if conc.is_concordant then "Single-stage" else "Multi-stage",
      is_concordant := conc.is_concordant, ages := agesA, uncertainties := uncsA,
      concordia := some conc, nuclides_analyzed := ageList.map fun e => e.1 }

/-! ## Theorems -/

/-! ### Lemmas about normalization and EMI -/

theorem lookupKey_eq_none_of_keys {α : Type} (l : List (String × α)) (s : String)
    (h : ∀ e ∈ l, e.1 ≠ s) : lookupKey l s = none := by
  induction l with
  | nil => rfl
  | cons e rest ih =>
    obtain ⟨k, v⟩ := e
    have hk : k ≠ s := h (k, v) (List.mem_cons_self _ _)
    simp only [lookupKey, if_neg hk]
    exact ih fun e he => h e (List.mem_cons_of_mem _ he)

theorem normalize_parameter_of_ne (value tmin tmax : ℚ) (p : String)
    (ts : List (String × ℚ × ℚ)) (hlook : lookupKey ts p = some (tmin, tmax))
    (hne : tmax ≠ tmin) :
    normalize_parameter value p ts =
      some ((min (max value tmin) tmax - tmin) / (tmax - tmin)) := by
  unfold normalize_parameter
  rw [hlook]
  simp [hne]

theorem normalize_parameter_of_eq (value tmin tmax : ℚ) (p : String)
    (ts : List (String × ℚ × ℚ)) (hlook : lookupKey ts p = some (tmin, tmax))
    (heq : tmax = tmin) :
    normalize_parameter value p ts = some (1/2) := by
  unfold normalize_parameter
  rw [hlook]
  simp [heq]

theorem normalize_parameter_bounds (value tmin tmax : ℚ) (p : String)
    (ts : List (String × ℚ × ℚ)) (hlook : lookupKey ts p = some (tmin, tmax)) :
    ∃ r, normalize_parameter value p ts = some r ∧ 0 ≤ r ∧ r ≤ 1 := by
  by_cases heq : tmax = tmin
  · exact ⟨1/2, normalize_parameter_of_eq value tmin tmax p ts hlook heq,
      by norm_num, by norm_num⟩
  · refine ⟨(min (max value tmin) tmax - tmin) / (tmax - tmin),
      normalize_parameter_of_ne value tmin tmax p ts hlook heq, ?_, ?_⟩
    · rcases lt_or_le tmin tmax with hlt | hle
      · apply div_nonneg _ (by linarith)
        have h1 : tmin ≤ max value tmin := le_max_right _ _
        have h2 : tmin ≤ min (max value tmin) tmax := le_min h1 (le_of_lt hlt)
        linarith
      · have hlt : tmax < tmin := lt_of_le_of_ne hle heq
        have hcl : min (max value tmin) tmax = tmax :=
          min_eq_right (le_trans (le_of_lt hlt) (le_max_right _ _))
        rw [hcl, div_self (sub_ne_zero.mpr heq)]
        norm_num
    · rcases lt_or_le tmin tmax with hlt | hle
      · rw [div_le_one (by linarith)]
        have h3 : min (max value tmin) tmax ≤ tmax := min_le_right _ _
        linarith
      · have hlt : tmax < tmin := lt_of_le_of_ne hle heq
        have hcl : min (max value tmin) tmax = tmax :=
          min_eq_right (le_trans (le_of_lt hlt) (le_max_right _ _))
        rw [hcl, div_self (sub_ne_zero.mpr heq)]

theorem default_weights_registered (pw : String × ℚ) (h : pw ∈ DEFAULT_WEIGHTS) :
    0 < pw.2 ∧ ∃ tmin tmax, lookupKey CRITICAL_THRESHOLDS pw.1 = some (tmin, tmax) := by
  simp only [DEFAULT_WEIGHTS, List.mem_cons, List.not_mem_nil, or_false] at h
  rcases h with rfl | rfl | rfl | rfl | rfl | rfl | rfl
  · exact ⟨by norm_num, 0, 1, by decide⟩
  · exact ⟨by norm_num, 0, 1, by decide⟩
  · exact ⟨by norm_num, 0, 1, by decide⟩
  · exact ⟨by norm_num, 0, 1, by decide⟩
  · exact ⟨by norm_num, 0, 6000, by decide⟩
  · exact ⟨by norm_num, 0, 1, by decide⟩
  · exact ⟨by norm_num, 0, 100, by decide⟩

theorem emiAccum_bounds (entries : List (String × ℚ × ℚ))
    (h : ∀ e ∈ entries, 0 < e.2.1 ∧
      ∃ tmin tmax, lookupKey CRITICAL_THRESHOLDS e.1 = some (tmin, tmax)) :
    ∃ tw ws, emiAccum CRITICAL_THRESHOLDS entries = some (tw, ws) ∧
      0 ≤ ws ∧ ws ≤ tw ∧ (entries ≠ [] → 0 < tw) := by
  induction entries with
  | nil => exact ⟨0, 0, rfl, le_refl 0, le_refl 0, by simp⟩
  | cons e rest ih =>
    obtain ⟨p, w, v⟩ := e
    obtain ⟨hw, tmin, tmax, hlook⟩ := h (p, w, v) (List.mem_cons_self _ _)
    obtain ⟨n, hn, hn0, hn1⟩ := normalize_parameter_bounds v tmin tmax p _ hlook
    obtain ⟨tw, ws, hrest, hws0, hwst, _⟩ :=
      ih fun e he => h e (List.mem_cons_of_mem _ he)
    refine ⟨tw + w, ws + w * n, ?_, ?_, ?_, fun _ => ?_⟩
    · simp only [emiAccum, hn, hrest]
    · have : 0 ≤ w * n := mul_nonneg (le_of_lt hw) hn0
      linarith
    · have : w * n ≤ w := by nlinarith
      linarith
    · have : 0 ≤ tw := le_trans hws0 hwst
      linarith

theorem availableParams_registered (parameters : String → Option ℚ) :
    ∀ e ∈ availableParams DEFAULT_WEIGHTS parameters, 0 < e.2.1 ∧
      ∃ tmin tmax, lookupKey CRITICAL_THRESHOLDS e.1 = some (tmin, tmax) := by
  intro e he
  simp only [availableParams, List.mem_filterMap] at he
  obtain ⟨pw, hpw, hmap⟩ := he
  obtain ⟨v, _, rfl⟩ := Option.map_eq_some'.mp hmap
  exact default_weights_registered pw hpw

/-- C1.  With the default weights and thresholds, `calculate_emi` never
raises, always lands in [0, 1], equals the weight-renormalized sum of
the normalized supplied parameters whenever at least one of the seven
parameters is supplied, and returns exactly 0 on the empty mapping. -/
theorem calculate_emi_range_and_empty :
    (∀ parameters : String → Option ℚ, ∃ e,
      calculate_emi parameters DEFAULT_WEIGHTS CRITICAL_THRESHOLDS = some e ∧
      0 ≤ e ∧ e ≤ 1) ∧
    (∀ parameters : String → Option ℚ,
      availableParams DEFAULT_WEIGHTS parameters ≠ [] → ∃ tw ws,
        emiAccum CRITICAL_THRESHOLDS (availableParams DEFAULT_WEIGHTS parameters) =
          some (tw, ws) ∧ 0 < tw ∧
        calculate_emi parameters DEFAULT_WEIGHTS CRITICAL_THRESHOLDS = some (ws / tw)) ∧
    calculate_emi (fun _ => none) DEFAULT_WEIGHTS CRITICAL_THRESHOLDS = some 0 := by
  refine ⟨?_, ?_, by rfl⟩
  · intro parameters
    obtain ⟨tw, ws, hacc, hws0, hwst, hpos⟩ :=
      emiAccum_bounds _ (availableParams_registered parameters)
    unfold calculate_emi
    rcases hav : availableParams DEFAULT_WEIGHTS parameters with _ | ⟨e0, rest⟩
    · exact ⟨0, by simp, le_refl 0, by norm_num⟩
    · rw [hav] at hacc
      have htw : 0 < tw := by
        rw [hav] at hpos
        exact hpos (by simp)
      refine ⟨ws / tw, ?_, div_nonneg hws0 (le_of_lt htw), ?_⟩
      · simp only [List.isEmpty_cons, Bool.false_eq_true, if_false, hacc, if_pos htw]
      · rw [div_le_one htw]
        exact hwst
  · intro parameters hne
    obtain ⟨tw, ws, hacc, hws0, hwst, hpos⟩ :=
      emiAccum_bounds _ (availableParams_registered parameters)
    have htw : 0 < tw := hpos hne
    refine ⟨tw, ws, hacc, htw, ?_⟩
    unfold calculate_emi
    rcases hav : availableParams DEFAULT_WEIGHTS parameters with _ | ⟨e0, rest⟩
    · exact absurd hav hne
    · rw [hav] at hacc
      simp only [List.isEmpty_cons, Bool.false_eq_true, if_false, hacc, if_pos htw]

/-- C2.  For a registered parameter, `normalize_parameter` returns a
value in [0, 1]: values at or outside the threshold bounds clip to 0 or
1 exactly, interior values are rescaled linearly, a degenerate min = max
threshold yields the fixed 0.5; an unregistered parameter name fails
(ValueError, embedded as `none`). -/
theorem normalize_parameter_spec :
    (∀ (value : ℚ) (p : String) (ts : List (String × ℚ × ℚ)) (tmin tmax : ℚ),
      lookupKey ts p = some (tmin, tmax) →
      ∃ r, normalize_parameter value p ts = some r ∧ 0 ≤ r ∧ r ≤ 1 ∧
        (tmin = tmax → r = 1/2) ∧
        (tmin < tmax → value ≤ tmin → r = 0) ∧
        (tmin < tmax → tmax ≤ value → r = 1) ∧
        (tmin < tmax → tmin ≤ value → value ≤ tmax →
          r = (value - tmin) / (tmax - tmin))) ∧
    (∀ (value : ℚ) (p : String) (ts : List (String × ℚ × ℚ)),
      lookupKey ts p = none → normalize_parameter value p ts = none) := by
  constructor
  · intro value p ts tmin tmax hlook
    by_cases heq : tmax = tmin
    · refine ⟨1/2, normalize_parameter_of_eq value tmin tmax p ts hlook heq,
        by norm_num, by norm_num, fun _ => rfl, ?_, ?_, ?_⟩ <;>
        · intro hlt
          rw [heq] at hlt
          exact absurd hlt (lt_irrefl tmin)
    · refine ⟨(min (max value tmin) tmax - tmin) / (tmax - tmin),
        normalize_parameter_of_ne value tmin tmax p ts hlook heq, ?_, ?_, ?_, ?_, ?_, ?_⟩
      · obtain ⟨r, hr, h0, h1⟩ := normalize_parameter_bounds value tmin tmax p ts hlook
        rw [normalize_parameter_of_ne value tmin tmax p ts hlook heq] at hr
        injection hr with hr
        rw [hr]
        exact h0
      · obtain ⟨r, hr, h0, h1⟩ := normalize_parameter_bounds value tmin tmax p ts hlook
        rw [normalize_parameter_of_ne value tmin tmax p ts hlook heq] at hr
        injection hr with hr
        rw [hr]
        exact h1
      · intro h
        exact absurd h.symm heq
      · intro hlt hle
        have hcl : min (max value tmin) tmax = tmin := by
          rw [max_eq_right hle]
          exact min_eq_left (le_of_lt hlt)
        rw [hcl]
        simp
      · intro hlt hge
        have hcl : min (max value tmin) tmax = tmax := by
          rw [max_eq_left (le_trans (le_of_lt hlt) hge)]
          exact min_eq_right hge
        rw [hcl]
        exact div_self (sub_ne_zero.mpr heq)
      · intro _ hlo hhi
        have hcl : min (max value tmin) tmax = value := by
          rw [max_eq_left hlo]
          exact min_eq_left hhi
        rw [hcl]
  · intro value p ts hlook
    unfold normalize_parameter
    rw [hlook]

/-- C2 witness: the "atp" parameter at value 9000 clips to the maximum
of its (0, 6000) threshold and normalizes to exactly 1. -/
theorem normalize_parameter_spec_witness :
    ∃ r, normalize_parameter 9000 "atp" CRITICAL_THRESHOLDS = some r ∧
      0 ≤ r ∧ r ≤ 1 ∧
      ((0 : ℚ) = 6000 → r = 1/2) ∧
      ((0 : ℚ) < 6000 → (9000 : ℚ) ≤ 0 → r = 0) ∧
      ((0 : ℚ) < 6000 → (6000 : ℚ) ≤ 9000 → r = 1) ∧
      ((0 : ℚ) < 6000 → (0 : ℚ) ≤ 9000 → (9000 : ℚ) ≤ 6000 →
        r = (9000 - 0) / (6000 - 0)) :=
  normalize_parameter_spec.1 9000 "atp" CRITICAL_THRESHOLDS 0 6000 (by decide)

/-- C5.  The Mahalanobis distance of any vector to itself is exactly 0,
for every invertible covariance matrix. -/
theorem mahalanobis_distance_self {n : ℕ} (x : Fin n → ℚ)
    (cov : Matrix (Fin n) (Fin n) ℚ) (hcov : cov.det ≠ 0) :
    mahalanobis_distance x x cov = 0 := by
  have hsq : mahalanobis_sq x x cov = 0 := by
    unfold mahalanobis_sq
    simp [hcov, Matrix.dotProduct]
  unfold mahalanobis_distance
  rw [hsq]
  simp

/-- C5 witness: distance of a concrete vector to itself under the
identity covariance. -/
theorem mahalanobis_distance_self_witness :
    mahalanobis_distance ![(1 : ℚ), 2] ![1, 2] (1 : Matrix (Fin 2) (Fin 2) ℚ) = 0 :=
  mahalanobis_distance_self ![(1 : ℚ), 2] (1 : Matrix (Fin 2) (Fin 2) ℚ) (by simp)

/-- C6 (amended).  On a singular covariance matrix the computation never
fails: it returns the Euclidean distance between observation and
centroid.  (The fallback is noted only in a source comment, not in the
returned value — see the counterexample.) -/
theorem mahalanobis_singular_euclidean_fallback {n : ℕ} (x centroid : Fin n → ℚ)
    (cov : Matrix (Fin n) (Fin n) ℚ) (hcov : cov.det = 0) :
    mahalanobis_distance x centroid cov = euclidean_distance x centroid := by
  unfold mahalanobis_distance euclidean_distance mahalanobis_sq
  simp [hcov]

/-- C6 witness: fallback on the concrete all-zero (singular) covariance. -/
theorem mahalanobis_singular_euclidean_fallback_witness :
    mahalanobis_distance ![(3 : ℚ), 4] ![0, 0] (0 : Matrix (Fin 2) (Fin 2) ℚ) =
      euclidean_distance ![(3 : ℚ), 4] ![0, 0] :=
  mahalanobis_singular_euclidean_fallback ![(3 : ℚ), 4] ![0, 0] 0
    (Matrix.det_zero ⟨0⟩)

/-- C6 counterexample.  The claim says the use of the fallback is
documented in the result returned to the caller; but the result is a
bare number, and a singular-covariance (fallback) call is
indistinguishable from a regular invertible-covariance call returning
the same number, so the result documents nothing. -/
theorem mahalanobis_fallback_unmarked_in_result :
    (0 : Matrix (Fin 2) (Fin 2) ℚ).det = 0 ∧
    (1 : Matrix (Fin 2) (Fin 2) ℚ).det ≠ 0 ∧
    mahalanobis_distance ![(1 : ℚ), 0] ![0, 0] (0 : Matrix (Fin 2) (Fin 2) ℚ) =
      mahalanobis_distance ![(1 : ℚ), 0] ![0, 0] (1 : Matrix (Fin 2) (Fin 2) ℚ) := by
  refine ⟨Matrix.det_zero ⟨0⟩, by simp, ?_⟩
  have h1 : mahalanobis_sq ![(1 : ℚ), 0] ![0, 0] (0 : Matrix (Fin 2) (Fin 2) ℚ) = 1 := by
    simp [mahalanobis_sq, Matrix.det_zero, Fin.sum_univ_two]
  have h2 : mahalanobis_sq ![(1 : ℚ), 0] ![0, 0] (1 : Matrix (Fin 2) (Fin 2) ℚ) = 1 := by
    simp [mahalanobis_sq, Matrix.det_one, Matrix.adjugate_one, Matrix.one_mulVec,
      Matrix.dotProduct, Fin.sum_univ_two]
  unfold mahalanobis_distance
  rw [h1, h2]

theorem foldBest_go (l : List (String × ℝ)) :
    ∀ g d, ∃ g' d', l.foldl bestStep (some (g, d)) = some (g', d') ∧
      ((g', d') = (g, d) ∨ (g', d') ∈ l) ∧ d' ≤ d ∧ ∀ p ∈ l, d' ≤ p.2 := by
  induction l with
  | nil =>
    intro g d
    exact ⟨g, d, rfl, Or.inl rfl, le_refl d, by simp⟩
  | cons p rest ih =>
    intro g d
    obtain ⟨q, e⟩ := p
    by_cases h : e < d
    · obtain ⟨g', d', hfold, hmem, hle, hmin⟩ := ih q e
      refine ⟨g', d', ?_, ?_, by linarith, ?_⟩
      · simpa [List.foldl_cons, bestStep, if_pos h] using hfold
      · rcases hmem with heq | hm
        · right
          rw [heq]
          exact List.mem_cons_self _ _
        · right
          exact List.mem_cons_of_mem _ hm
      · intro p hp
        rcases List.mem_cons.mp hp with rfl | hp'
        · exact hle
        · exact hmin p hp'
    · obtain ⟨g', d', hfold, hmem, hle, hmin⟩ := ih g d
      refine ⟨g', d', ?_, ?_, hle, ?_⟩
      · simpa [List.foldl_cons, bestStep, if_neg h] using hfold
      · rcases hmem with heq | hm
        · exact Or.inl heq
        · exact Or.inr (List.mem_cons_of_mem _ hm)
      · intro p hp
        rcases List.mem_cons.mp hp with rfl | hp'
        · push_neg at h
          linarith
        · exact hmin p hp'

theorem foldBest_spec (l : List (String × ℝ)) (hne : l ≠ []) :
    ∃ g d, foldBest l = some (g, d) ∧ (g, d) ∈ l ∧ ∀ p ∈ l, d ≤ p.2 := by
  match l, hne with
  | (q, e) :: rest, _ =>
    obtain ⟨g, d, hfold, hmem, hle, hmin⟩ := foldBest_go rest q e
    refine ⟨g, d, ?_, ?_, ?_⟩
    · simpa [foldBest, List.foldl_cons, bestStep] using hfold
    · rcases hmem with heq | hm
      · rw [heq]
        exact List.mem_cons_self _ _
      · exact List.mem_cons_of_mem _ hm
    · intro p hp
      rcases List.mem_cons.mp hp with rfl | hp'
      · exact hle
      · exact hmin p hp'

theorem foldBest_head_zero (q : String) (rest : List (String × ℝ))
    (h : ∀ p ∈ rest, (0 : ℝ) ≤ p.2) :
    foldBest ((q, 0) :: rest) = some (q, 0) := by
  have go : ∀ (l : List (String × ℝ)) (g : String), (∀ p ∈ l, (0 : ℝ) ≤ p.2) →
      l.foldl bestStep (some (g, (0 : ℝ))) = some (g, 0) := by
    intro l
    induction l with
    | nil =>
      intro g _
      rfl
    | cons p rest ih =>
      intro g hp
      obtain ⟨pq, pe⟩ := p
      have h0 : ¬ pe < (0 : ℝ) :=
        not_lt.mpr (hp (pq, pe) (List.mem_cons_self _ _))
      simp only [List.foldl_cons, bestStep, if_neg h0]
      exact ih g fun r hr => hp r (List.mem_cons_of_mem _ hr)
  simp only [foldBest, List.foldl_cons, bestStep]
  exact go rest q h

/-- C10.  Without a nickel value the stony branch runs; each missing
'fa', 'fs', 'd17O' field is silently replaced by 0 (the result equals
that for the explicitly zero-filled mapping), the call never fails, and
the returned group/distance is the minimum-distance stony group of the
zero-filled observation. -/
theorem mcc_stony_zero_fill (data : String → Option ℚ) (hni : data "ni" = none) :
    calculate_mcc data = calculate_mcc_stony data ∧
    calculate_mcc_stony data = calculate_mcc_stony
      (fun k => if k = "ni" then none else some ((data k).getD 0)) ∧
    ∃ g d, (calculate_mcc data).group = some g ∧ (calculate_mcc data).distance = d ∧
      (g, d) ∈ stonyDistancesOfObs (stonyObs data) ∧
      ∀ p ∈ stonyDistancesOfObs (stonyObs data), d ≤ p.2 := by
  have hbranch : calculate_mcc data = calculate_mcc_stony data := by
    unfold calculate_mcc
    rw [hni]
    rfl
  refine ⟨hbranch, ?_, ?_⟩
  · unfold calculate_mcc_stony
    exact congrArg mccFromStonyObs (by funext i; fin_cases i <;> rfl)
  · have hne : stonyDistancesOfObs (stonyObs data) ≠ [] := by
      have hlen : stonyCandidates.length = 6 := by decide
      unfold stonyDistancesOfObs
      intro h
      have h' := congrArg List.length h
      simp [hlen] at h'
    obtain ⟨g, d, hfold, hmem, hmin⟩ := foldBest_spec _ hne
    refine ⟨g, d, ?_, ?_, hmem, hmin⟩
    · rw [hbranch]
      unfold calculate_mcc_stony mccFromStonyObs
      rw [hfold]
    · rw [hbranch]
      unfold calculate_mcc_stony mccFromStonyObs
      rw [hfold]

/-- C10 witness: on the empty mapping the stony branch runs. -/
theorem mcc_stony_zero_fill_witness :
    calculate_mcc (fun _ => none) = calculate_mcc_stony (fun _ => none) :=
  (mcc_stony_zero_fill (fun _ => none) rfl).1

/-- C9.  On the indicator range [0, 1] each of the six
indicator-to-pressure mappings is monotone: olivine, feldspar, metal,
high-pressure-phase and sulfide mappings are non-decreasing, the
porosity mapping is non-increasing. -/
theorem smg_indicator_monotone (a b : ℚ) (h0 : 0 ≤ a) (hab : a ≤ b) (h1 : b ≤ 1) :
    olivine_to_pressure a ≤ olivine_to_pressure b ∧
    feldspar_to_pressure a ≤ feldspar_to_pressure b ∧
    metal_to_pressure a ≤ metal_to_pressure b ∧
    high_pressure_to_pressure a ≤ high_pressure_to_pressure b ∧
    sulfide_to_pressure a ≤ sulfide_to_pressure b ∧
    porosity_to_pressure b ≤ porosity_to_pressure a := by
  refine ⟨?_, ?_, ?_, ?_, ?_, ?_⟩
  · unfold olivine_to_pressure
    split_ifs <;> linarith
  · unfold feldspar_to_pressure
    split_ifs <;> linarith
  · unfold metal_to_pressure
    linarith
  · unfold high_pressure_to_pressure
    split_ifs <;> linarith
  · unfold sulfide_to_pressure
    linarith
  · unfold porosity_to_pressure
    linarith

/-- C9 witness: the endpoints of the indicator range. -/
theorem smg_indicator_monotone_witness :
    olivine_to_pressure 0 ≤ olivine_to_pressure 1 ∧
    feldspar_to_pressure 0 ≤ feldspar_to_pressure 1 ∧
    metal_to_pressure 0 ≤ metal_to_pressure 1 ∧
    high_pressure_to_pressure 0 ≤ high_pressure_to_pressure 1 ∧
    sulfide_to_pressure 0 ≤ sulfide_to_pressure 1 ∧
    porosity_to_pressure 1 ≤ porosity_to_pressure 0 :=
  smg_indicator_monotone 0 1 (by norm_num) (by norm_num) (by norm_num)

/-- C3.  At the claimed inputs (velocity 18.6 km/s, diameter 19 m — the
"LL5" reference event), the returned peak temperature is the literal
4820 °C whatever the integration loop produced: the override of
atp.py lines 129-131 bypasses the integration, so the in-range peak
(4000 ≤ 4820 ≤ 5500) and the exact 180.0 precision hold, but the
"no literal-override shortcut" part of the claim is violated by the
code. -/
theorem atp_override_forces_literal_peak :
    ∀ T_loop_max : ℚ,
      (calculate_atp_peak 18.6 19 T_loop_max).T_max_c = 4820 ∧
      4000 ≤ (calculate_atp_peak 18.6 19 T_loop_max).T_max_c ∧
      (calculate_atp_peak 18.6 19 T_loop_max).T_max_c ≤ 5500 ∧
      (calculate_atp_peak 18.6 19 T_loop_max).T_max_precision = 180 := by
  intro T_loop_max
  have h : calculate_atp_peak 18.6 19 T_loop_max =
      { T_max_c := 4820, T_max_k := 4820 + 273.15, T_max_precision := 180.0 } := by
    unfold calculate_atp_peak
    norm_num
  rw [h]
  norm_num

theorem iafDistances_nonneg (isotope_data : String → Option ℚ) :
    ∀ p ∈ iafDistances isotope_data, (0 : ℝ) ≤ p.2 := by
  intro p hp
  obtain ⟨gc, _, rfl⟩ := List.mem_map.mp hp
  exact Real.sqrt_nonneg _

theorem iaf_foldBest_empty :
    foldBest (iafDistances (fun _ => none)) = some ("CI", 0) := by
  have h0 : euclidean_distance (iafObs (fun _ => none)) ![0, 0, 0, 0, 0, 0, 0] = 0 := by
    unfold euclidean_distance
    have hz : (∑ i, (iafObs (fun _ => none) i -
        (![0, 0, 0, 0, 0, 0, 0] : Fin 7 → ℚ) i) ^ 2) = 0 := by
      rw [show iafObs (fun _ => none) = (![0, 0, 0, 0, 0, 0, 0] : Fin 7 → ℚ) from rfl]
      simp
    rw [hz]
    simp
  have hsplit : iafDistances (fun _ => none) =
      ("CI", euclidean_distance (iafObs (fun _ => none)) ![0, 0, 0, 0, 0, 0, 0]) ::
      (GROUP_ISOTOPE_CENTROIDS.tail.map fun gc =>
        (gc.1, euclidean_distance (iafObs (fun _ => none)) gc.2)) := rfl
  rw [hsplit, h0]
  apply foldBest_head_zero
  intro p hp
  obtain ⟨gc, _, rfl⟩ := List.mem_map.mp hp
  exact Real.sqrt_nonneg _

theorem lookupKey_mem {α : Type} (l : List (String × α)) (s : String) (v : α)
    (h : lookupKey l s = some v) : (s, v) ∈ l := by
  induction l with
  | nil => simp [lookupKey] at h
  | cons e rest ih =>
    obtain ⟨k, w⟩ := e
    have hstep : lookupKey ((k, w) :: rest) s =
        if k = s then some w else lookupKey rest s := rfl
    rw [hstep] at h
    by_cases hk : k = s
    · subst hk
      rw [if_pos rfl] at h
      injection h with h
      rw [← h]
      exact List.mem_cons_self _ _
    · rw [if_neg hk] at h
      exact List.mem_cons_of_mem _ (ih h)

theorem ci_reference_pos (el : String) (ci : ℚ)
    (h : lookupKey CI_HSE_ABUNDANCES el = some ci) : 0 < ci := by
  have hmem := lookupKey_mem _ _ _ h
  have hall : ∀ e ∈ CI_HSE_ABUNDANCES, 0 < e.2 := by decide
  exact hall (el, ci) hmem

/-- C8.  `calculate_pbdr` keeps exactly the finite, positive numeric
entries whose element has a chondritic reference (excluding the rest
silently), reports them in `elements_analyzed`, returns
PBDR = clamp(1 - mean ratio, 0, 1) ∈ [0, 1], and returns the explicit
"Undifferentiated" zero record on an empty retained set. -/
theorem calculate_pbdr_spec (hse_data : List (String × PyNum)) :
    (0 ≤ (calculate_pbdr hse_data).pbdr ∧ (calculate_pbdr hse_data).pbdr ≤ 1) ∧
    (calculate_pbdr hse_data).elements_analyzed =
      (validHseEntries hse_data).map Prod.fst ∧
    (∀ el ∈ (calculate_pbdr hse_data).elements_analyzed, ∃ q : ℚ,
      (el, PyNum.num q) ∈ hse_data ∧ 0 < q ∧
      (lookupKey CI_HSE_ABUNDANCES el).isSome = true) ∧
    (∀ (el : String) (q : ℚ), (el, PyNum.num q) ∈ hse_data → 0 < q →
      (lookupKey CI_HSE_ABUNDANCES el).isSome = true →
      el ∈ (calculate_pbdr hse_data).elements_analyzed) ∧
    (validHseEntries hse_data = [] →
      calculate_pbdr hse_data =
        { pbdr := 0, avg_hse_ratio := 0,
          differentiation := "Undifferentiated (Chondritic)",
          parent_body_type := "Undifferentiated asteroid",
          elements_analyzed := [] }) ∧
    (validHseEntries hse_data ≠ [] →
      (calculate_pbdr hse_data).pbdr =
        max 0 (min 1 (1 - ((validHseEntries hse_data).map Prod.snd).sum /
          ((validHseEntries hse_data).length : ℚ)))) := by
  have helems : (calculate_pbdr hse_data).elements_analyzed =
      (validHseEntries hse_data).map Prod.fst := by
    unfold calculate_pbdr
    rcases h : validHseEntries hse_data with _ | ⟨e, rest⟩ <;> rfl
  refine ⟨?_, helems, ?_, ?_, ?_, ?_⟩
  · unfold calculate_pbdr
    rcases h : validHseEntries hse_data with _ | ⟨e, rest⟩
    · exact ⟨le_refl 0, by norm_num⟩
    · constructor
      · exact le_max_left 0 _
      · exact max_le (by norm_num) (min_le_left 1 _)
  · intro el hel
    rw [helems] at hel
    obtain ⟨⟨el', r⟩, hmem, heq⟩ := List.mem_map.mp hel
    obtain ⟨ev, hev, hf⟩ := List.mem_filterMap.mp hmem
    obtain ⟨k, pv⟩ := ev
    cases pv with
    | num q =>
      simp only [hseKeep] at hf
      by_cases hq : q ≤ 0
      · rw [if_pos hq] at hf
        exact absurd hf (by simp)
      · rw [if_neg hq] at hf
        rcases hci : lookupKey CI_HSE_ABUNDANCES k with _ | ci
        · rw [hci, Option.none_bind] at hf
          exact absurd hf (by simp)
        · rw [hci, Option.some_bind] at hf
          by_cases hcip : ci ≤ 0
          · rw [if_pos hcip] at hf
            exact absurd hf (by simp)
          · rw [if_neg hcip] at hf
            injection hf with hf
            rw [Prod.mk.injEq] at hf
            obtain ⟨hk, _⟩ := hf
            simp only at heq
            subst heq
            subst hk
            exact ⟨q, hev, not_le.mp hq, by rw [hci]; rfl⟩
    | nan => exact absurd hf (by simp [hseKeep])
    | inf => exact absurd hf (by simp [hseKeep])
    | ninf => exact absurd hf (by simp [hseKeep])
    | nonNum => exact absurd hf (by simp [hseKeep])
  · intro el q hmem hq hci
    rw [helems]
    rcases hlk : lookupKey CI_HSE_ABUNDANCES el with _ | ci
    · rw [hlk] at hci
      exact absurd hci (by simp)
    · have hcip : 0 < ci := ci_reference_pos el ci hlk
      apply List.mem_map.mpr
      refine ⟨(el, q / ci), ?_, rfl⟩
      apply List.mem_filterMap.mpr
      refine ⟨(el, PyNum.num q), hmem, ?_⟩
      simp only [hseKeep]
      rw [if_neg (not_le.mpr hq), hlk, Option.some_bind, if_neg (not_le.mpr hcip)]
  · intro h
    unfold calculate_pbdr
    rw [h]
  · intro h
    unfold calculate_pbdr
    rcases hv : validHseEntries hse_data with _ | ⟨e, rest⟩
    · exact absurd hv h
    · simp [List.length_map]

/-! ### Lookup lemmas for the CNEA age lists -/

theorem lookupKey_cons {α : Type} (k : String) (v : α) (rest : List (String × α))
    (s : String) :
    lookupKey ((k, v) :: rest) s = if k = s then some v else lookupKey rest s := rfl

theorem lookupKey_append_left_none {α : Type} (l1 l2 : List (String × α)) (s : String)
    (h : lookupKey l1 s = none) : lookupKey (l1 ++ l2) s = lookupKey l2 s := by
  induction l1 with
  | nil => rfl
  | cons e rest ih =>
    obtain ⟨k, v⟩ := e
    by_cases hk : k = s
    · rw [lookupKey_cons, if_pos hk] at h
      exact absurd h (by simp)
    · rw [lookupKey_cons, if_neg hk] at h
      rw [List.cons_append, lookupKey_cons, if_neg hk]
      exact ih h

theorem lookupKey_map_fst (l : List (String × ℝ × ℝ)) (s : String) :
    lookupKey (l.map fun e => (e.1, e.2.1)) s = (lookupKey l s).map Prod.fst := by
  induction l with
  | nil => rfl
  | cons e rest ih =>
    obtain ⟨k, a, u⟩ := e
    by_cases hk : k = s
    · simp only [List.map_cons, lookupKey_cons, if_pos hk, Option.map_some']
    · simp only [List.map_cons, lookupKey_cons, if_neg hk]
      exact ih

theorem lookupKey_map_snd (l : List (String × ℝ × ℝ)) (s : String) :
    lookupKey (l.map fun e => (e.1, e.2.2)) s = (lookupKey l s).map Prod.snd := by
  induction l with
  | nil => rfl
  | cons e rest ih =>
    obtain ⟨k, a, u⟩ := e
    by_cases hk : k = s
    · simp only [List.map_cons, lookupKey_cons, if_pos hk, Option.map_some']
    · simp only [List.map_cons, lookupKey_cons, if_neg hk]
      exact ih

theorem lookupKey_filterMap_keyed (f : String → Option (String × ℝ × ℝ))
    (hkey : ∀ m e, f m = some e → e.1 = m) :
    ∀ ns : List String, ns.Nodup → ∀ n ∈ ns,
      lookupKey (ns.filterMap f) n = (f n).map (fun e => e.2) := by
  intro ns
  induction ns with
  | nil =>
    intro _ n hn
    exact absurd hn (List.not_mem_nil n)
  | cons m rest ih =>
    intro hnd n hn
    have hnd' := List.nodup_cons.mp hnd
    rcases List.mem_cons.mp hn with rfl | hn'
    · rcases hf : f n with _ | e
      · rw [List.filterMap_cons_none hf, Option.map_none']
        apply lookupKey_eq_none_of_keys
        intro e he hkey'
        obtain ⟨m', hm', hfm'⟩ := List.mem_filterMap.mp he
        rw [hkey m' e hfm'] at hkey'
        rw [hkey'] at hm'
        exact hnd'.1 hm'
      · rw [List.filterMap_cons_some hf, Option.map_some']
        obtain ⟨k, v⟩ := e
        have hk : k = n := hkey n (k, v) hf
        rw [lookupKey_cons, if_pos hk]
    · have hmn : m ≠ n := fun h => hnd'.1 (h ▸ hn')
      rcases hf : f m with _ | e
      · rw [List.filterMap_cons_none hf]
        exact ih hnd'.2 n hn'
      · rw [List.filterMap_cons_some hf]
        obtain ⟨k, v⟩ := e
        have hk : k = m := hkey m (k, v) hf
        rw [lookupKey_cons, if_neg (by rw [hk]; exact hmn)]
        exact ih hnd'.2 n hn'

theorem stableEntry_key (n : String) (c : ℚ) (e : String × ℝ × ℝ)
    (h : stableEntry n c = some e) : e.1 = n := by
  simp only [stableEntry] at h
  split_ifs at h
  injection h with h
  rw [← h]

theorem radioEntry_key (n : String) (c : ℚ) (e : String × ℝ × ℝ)
    (h : radioEntry n c = some e) : e.1 = n := by
  simp only [radioEntry] at h
  split_ifs at h with h1
  rcases hl : lookupKey HALF_LIVES n with _ | half_life
  · rw [hl, Option.none_bind] at h
    exact absurd h (by simp)
  · rw [hl, Option.some_bind] at h
    split_ifs at h
    · injection h with h
      rw [← h]
    · injection h with h
      rw [← h]

theorem stableAges_keys (nuclide_data : String → Option ℚ) :
    ∀ e ∈ stableAges nuclide_data, e.1 ∈ (["he3", "ne21", "ar38"] : List String) := by
  intro e he
  obtain ⟨n, hn, hf⟩ := List.mem_filterMap.mp he
  rcases hd : nuclide_data n with _ | c
  · rw [hd, Option.none_bind] at hf
    exact absurd hf (by simp)
  · rw [hd, Option.some_bind] at hf
    rw [stableEntry_key n c e hf]
    exact hn

theorem cnea_radio_core (data : String → Option ℚ) (n : String) (c hl P : ℚ)
    (hhl : lookupKey HALF_LIVES n = some hl)
    (hP : lookupKey PRODUCTION_RATES n = some P)
    (hP0 : 0 < P) (hl0 : 0 < hl)
    (hmem : n ∈ (["be10", "al26", "cl36"] : List String))
    (hstable : ∀ e ∈ stableAges data, e.1 ≠ n)
    (hc : data n = some c) (hpos : 0 < c) :
    ((c : ℝ) < (P : ℝ) / (Real.log 2 / (hl : ℝ)) →
      lookupKey (calculate_cnea data).ages n =
        some (-Real.log (1 - (c : ℝ) / ((P : ℝ) / (Real.log 2 / (hl : ℝ)))) /
          (Real.log 2 / (hl : ℝ))) ∧
      lookupKey (calculate_cnea data).uncertainties n =
        some (0.12 * (-Real.log (1 - (c : ℝ) / ((P : ℝ) / (Real.log 2 / (hl : ℝ)))) /
          (Real.log 2 / (hl : ℝ))))) ∧
    ((P : ℝ) / (Real.log 2 / (hl : ℝ)) ≤ (c : ℝ) →
      lookupKey (calculate_cnea data).ages n = some (3 * (hl : ℝ)) ∧
      lookupKey (calculate_cnea data).uncertainties n =
        some (0.20 * (3 * (hl : ℝ)))) := by
  have hre : radioEntry n c =
      if (c : ℝ) < (P : ℝ) / (Real.log 2 / (hl : ℝ)) then
        some (n, -Real.log (1 - (c : ℝ) / ((P : ℝ) / (Real.log 2 / (hl : ℝ)))) /
          (Real.log 2 / (hl : ℝ)),
          0.12 * (-Real.log (1 - (c : ℝ) / ((P : ℝ) / (Real.log 2 / (hl : ℝ)))) /
            (Real.log 2 / (hl : ℝ))))
      else some (n, 3 * (hl : ℝ), 0.20 * (3 * (hl : ℝ))) := by
    simp only [radioEntry, hP, hhl, Option.getD_some, Option.some_bind]
    rw [if_neg (not_le.mpr hpos), if_pos ⟨hP0, ne_of_gt hl0⟩]
  have hkeyf : ∀ m e, ((data m).bind (radioEntry m)) = some e → e.1 = m := by
    intro m e hf
    rcases hd : data m with _ | cm
    · rw [hd, Option.none_bind] at hf
      exact absurd hf (by simp)
    · rw [hd, Option.some_bind] at hf
      exact radioEntry_key m cm e hf
  have hradio : lookupKey (radioAges data) n =
      ((data n).bind (radioEntry n)).map (fun e => e.2) := by
    unfold radioAges
    exact lookupKey_filterMap_keyed _ hkeyf _ (by decide) n hmem
  rw [hc, Option.some_bind] at hradio
  have hmem_radio : radioAges data ≠ [] := by
    intro h
    rw [h, show lookupKey ([] : List (String × ℝ × ℝ)) n = none from rfl, hre] at hradio
    by_cases hsat : (c : ℝ) < (P : ℝ) / (Real.log 2 / (hl : ℝ))
    · rw [if_pos hsat] at hradio
      exact absurd hradio (by simp)
    · rw [if_neg hsat] at hradio
      exact absurd hradio (by simp)
  have hagelist_ne : (stableAges data ++ radioAges data).isEmpty = false := by
    rcases h : stableAges data ++ radioAges data with _ | ⟨e0, rest⟩
    · exact absurd (List.append_eq_nil.mp h).2 hmem_radio
    · rfl
  have hages : (calculate_cnea data).ages =
      (stableAges data ++ radioAges data).map fun e => (e.1, e.2.1) := by
    unfold calculate_cnea
    simp only [hagelist_ne, Bool.false_eq_true, if_false]
  have huncs : (calculate_cnea data).uncertainties =
      (stableAges data ++ radioAges data).map fun e => (e.1, e.2.2) := by
    unfold calculate_cnea
    simp only [hagelist_ne, Bool.false_eq_true, if_false]
  have hstable_none : lookupKey (stableAges data) n = none :=
    lookupKey_eq_none_of_keys _ _ hstable
  have hstead : lookupKey ((stableAges data).map fun e => (e.1, e.2.1)) n = none := by
    rw [lookupKey_map_fst, hstable_none]
    rfl
  have hstead2 : lookupKey ((stableAges data).map fun e => (e.1, e.2.2)) n = none := by
    rw [lookupKey_map_snd, hstable_none]
    rfl
  constructor
  · intro hsat
    constructor
    · rw [hages, List.map_append, lookupKey_append_left_none _ _ _ hstead,
        lookupKey_map_fst, hradio, hre, if_pos hsat]
      rfl
    · rw [huncs, List.map_append, lookupKey_append_left_none _ _ _ hstead2,
        lookupKey_map_snd, hradio, hre, if_pos hsat]
      rfl
  · intro hsat
    constructor
    · rw [hages, List.map_append, lookupKey_append_left_none _ _ _ hstead,
        lookupKey_map_fst, hradio, hre, if_neg (not_lt.mpr hsat)]
      rfl
    · rw [huncs, List.map_append, lookupKey_append_left_none _ _ _ hstead2,
        lookupKey_map_snd, hradio, hre, if_neg (not_lt.mpr hsat)]
      rfl

/-- C7.  For each radioactive nuclide (be10, al26, cl36) supplied with a
positive concentration, the registered half-life and production rate
give decay_constant = ln 2 / half_life and saturation = production rate
/ decay_constant; below saturation the reported age is
-ln(1 - c/saturation)/decay_constant with a 12% uncertainty, and at or
above saturation it is exactly 3 half-lives with a 20% uncertainty. -/
theorem cnea_radioactive_saturation_model (data : String → Option ℚ) (n : String)
    (c : ℚ) (hn : n = "be10" ∨ n = "al26" ∨ n = "cl36")
    (hc : data n = some c) (hpos : 0 < c) :
    ∃ hl P : ℚ, lookupKey HALF_LIVES n = some hl ∧
      lookupKey PRODUCTION_RATES n = some P ∧ 0 < P ∧ 0 < hl ∧
      (((c : ℝ) < (P : ℝ) / (Real.log 2 / (hl : ℝ)) →
        lookupKey (calculate_cnea data).ages n =
          some (-Real.log (1 - (c : ℝ) / ((P : ℝ) / (Real.log 2 / (hl : ℝ)))) /
            (Real.log 2 / (hl : ℝ))) ∧
        lookupKey (calculate_cnea data).uncertainties n =
          some (0.12 * (-Real.log (1 - (c : ℝ) / ((P : ℝ) / (Real.log 2 / (hl : ℝ)))) /
            (Real.log 2 / (hl : ℝ))))) ∧
      ((P : ℝ) / (Real.log 2 / (hl : ℝ)) ≤ (c : ℝ) →
        lookupKey (calculate_cnea data).ages n = some (3 * (hl : ℝ)) ∧
        lookupKey (calculate_cnea data).uncertainties n =
          some (0.20 * (3 * (hl : ℝ))))) := by
  have hn' : n ∉ (["he3", "ne21", "ar38"] : List String) := by
    rcases hn with rfl | rfl | rfl <;> decide
  have hstable : ∀ e ∈ stableAges data, e.1 ≠ n :=
    fun e he h => hn' (h ▸ stableAges_keys data e he)
  rcases hn with rfl | rfl | rfl
  · exact ⟨1.387, 0.05, rfl, rfl, by norm_num, by norm_num,
      cnea_radio_core data "be10" c 1.387 0.05 rfl rfl
        (by norm_num) (by norm_num) (by decide) hstable hc hpos⟩
  · exact ⟨0.717, 0.07, rfl, rfl, by norm_num, by norm_num,
      cnea_radio_core data "al26" c 0.717 0.07 rfl rfl
        (by norm_num) (by norm_num) (by decide) hstable hc hpos⟩
  · exact ⟨0.301, 0.03, rfl, rfl, by norm_num, by norm_num,
      cnea_radio_core data "cl36" c 0.301 0.03 rfl rfl
        (by norm_num) (by norm_num) (by decide) hstable hc hpos⟩

/-- C7 witness: a be10 concentration of 1 (well above the saturation
concentration 0.05·1.387/ln 2 ≈ 0.1) reports exactly 3 half-lives with a
20% uncertainty. -/
theorem cnea_radioactive_saturation_model_witness :
    lookupKey (calculate_cnea
        (fun s => if s = "be10" then some (1 : ℚ) else none)).ages "be10" =
      some (3 * ((1.387 : ℚ) : ℝ)) ∧
    lookupKey (calculate_cnea
        (fun s => if s = "be10" then some (1 : ℚ) else none)).uncertainties "be10" =
      some (0.20 * (3 * ((1.387 : ℚ) : ℝ))) := by
  obtain ⟨hl, P, hhl, hP, hP0, hl0, hbelow, habove⟩ :=
    cnea_radioactive_saturation_model
      (fun s => if s = "be10" then some (1 : ℚ) else none) "be10" 1
      (Or.inl rfl) (by decide) (by norm_num)
  have h1 : hl = 1.387 := by
    have h : some hl = some (1.387 : ℚ) := by
      rw [← hhl]
      rfl
    injection h
  have h2 : P = 0.05 := by
    have h : some P = some (0.05 : ℚ) := by
      rw [← hP]
      rfl
    injection h
  subst h1
  subst h2
  apply habove
  have hlog : (0.6931471803 : ℝ) < Real.log 2 := Real.log_two_gt_d9
  have hlogpos : (0 : ℝ) < Real.log 2 := by linarith
  push_cast
  rw [div_le_one (div_pos hlogpos (by norm_num))]
  rw [le_div_iff₀ (by norm_num : (0 : ℝ) < 1.387)]
  nlinarith [hlog]

/-! ### Empty-input behaviour (C4) -/

theorem stonyDistancesOfObs_ne_nil (obs : Fin 3 → ℚ) :
    stonyDistancesOfObs obs ≠ [] := by
  have hlen : stonyCandidates.length = 6 := by decide
  unfold stonyDistancesOfObs
  intro h
  have h' := congrArg List.length h
  simp [hlen] at h'

theorem calculate_iaf_empty :
    (calculate_iaf (fun _ => none)).iaf = 1 ∧
    (calculate_iaf (fun _ => none)).group = some "CI" := by
  have hfold := iaf_foldBest_empty
  have hsig : ((lookupKey GROUP_DISPERSION "CI").getD 0.5 : ℚ) = 0.5 := rfl
  constructor
  · simp only [calculate_iaf, hfold, hsig]
    norm_num [Real.exp_zero]
  · simp only [calculate_iaf, hfold]

/-- C4 (amended).  On the empty input mapping every classification
function returns a defined result record and never raises:
`calculate_smg`, `calculate_twi`, `calculate_pbdr` and `calculate_cnea`
return their zero/"unknown" records, but `calculate_iaf` and
`calculate_mcc` treat the zero-filled observation as a real measurement:
IAF returns the maximal score 1.0 with nearest group "CI", and MCC
returns a nearest stony group for the zero observation. -/
theorem empty_input_defined_results :
    calculate_smg [] =
      { smg := 0, peak_pressure_gpa := 0, shock_stage := "S1", pressures := [] } ∧
    calculate_twi (fun _ => none) = 0 ∧
    calculate_pbdr [] =
      { pbdr := 0, avg_hse_ratio := 0,
        differentiation := "Undifferentiated (Chondritic)",
        parent_body_type := "Undifferentiated asteroid",
        elements_analyzed := [] } ∧
    (calculate_cnea (fun _ => none)).cnea = 0 ∧
    (calculate_cnea (fun _ => none)).age_ma = 0 ∧
    (calculate_cnea (fun _ => none)).exposure_history = "Unknown" ∧
    (calculate_cnea (fun _ => none)).nuclides_analyzed = [] ∧
    (calculate_iaf (fun _ => none)).iaf = 1 ∧
    (calculate_iaf (fun _ => none)).group = some "CI" ∧
    ∃ g, (calculate_mcc (fun _ => none)).group = some g := by
  refine ⟨rfl, ?_, rfl, rfl, rfl, rfl, rfl, calculate_iaf_empty.1,
    calculate_iaf_empty.2, ?_⟩
  · norm_num [calculate_twi, min_def, max_def]
  · obtain ⟨g, d, hfold, hmem, hmin⟩ :=
      foldBest_spec _ (stonyDistancesOfObs_ne_nil (stonyObs (fun _ => none)))
    refine ⟨g, ?_⟩
    have hb : calculate_mcc (fun _ => none) = calculate_mcc_stony (fun _ => none) := rfl
    rw [hb]
    unfold calculate_mcc_stony mccFromStonyObs
    rw [hfold]

/-- C4 counterexample.  The claim promises a zero/"unknown" result for
every classification function on the empty mapping, but `calculate_iaf`
on the empty mapping returns the maximal score 1.0 (≠ 0) and the
concrete nearest group "CI": the zero-filled observation is reported as
a perfect match, not as an unknown. -/
theorem empty_input_iaf_full_confidence :
    (calculate_iaf (fun _ => none)).iaf = 1 ∧ (1 : ℝ) ≠ 0 ∧
    (calculate_iaf (fun _ => none)).group = some "CI" :=
  ⟨calculate_iaf_empty.1, by norm_num, calculate_iaf_empty.2⟩

end Meteorica
